import Mathlib

/-!
Verification development for the AnthroRouter protocol-translation gateway.

The embedding models, at the level of decoded text, the two SSE stream
handlers (`src/lib/anthropic-proxy/streaming-handler.ts` and the Express
variant in `src/lib/auth.ts`), the request/response transcoder
(`src/lib/anthropic-proxy/request-handler.ts`) and the admission layer
(`validateApiKey` / `checkRateLimit` in `src/lib/auth.ts` and
`src/lib/anthropic-proxy/auth.ts`).

Conventions of the embedding:
* Incoming stream chunks are modelled as decoded text (`List Char`).
  `TextDecoder.decode(chunk, \x7bstream: true\x7d)` retains incomplete
  trailing multi-byte sequences, so a byte-level split inside a multi-byte
  character behaves exactly like the corresponding character-boundary
  split; character-level chunking is therefore a faithful model of the
  byte-level interface.
* `JSON.parse` is modelled by an executable recursive-descent reader over
  a JSON subset (null, booleans, integer numbers, strings with the common
  single-character escapes, arrays, objects).  The stream theorems treat
  the reader opaquely; concrete witnesses only use inputs inside the
  subset, on which the reader agrees with `JSON.parse`.
* JavaScript dynamic values are modelled by `JsValue`; `undefined`
  (absent property, out-of-range index) is modelled by `Option.none`.
-/

/-- A JavaScript/JSON value as produced by `JSON.parse`.  Numbers are
modelled as integers (every numeric field the proxy touches is an
integer token count). -/
inductive JsValue where
  | null : JsValue
  | bool (b : Bool) : JsValue
  | num (n : Int) : JsValue
  | str (s : String) : JsValue
  | arr (items : List JsValue) : JsValue
  | obj (fields : List (String × JsValue)) : JsValue

/-- JavaScript truthiness of a value. -/
def truthy : JsValue → Bool
  | JsValue.null => false
  | JsValue.bool b => b
  | JsValue.num n => n != 0
  | JsValue.str s => s ≠ ""
  | JsValue.arr _ => true
  | JsValue.obj _ => true

/-- Truthiness of a possibly-undefined value (`undefined` is falsy). -/
def truthyO : Option JsValue → Bool
  | some v => truthy v
  | none => false

/-- Last binding of a key in an object's field list (`JSON.parse` keeps
the last duplicate key). -/
def lastField : List (String × JsValue) → String → Option JsValue
  | [], _ => none
  | (k', v') :: fs, k =>
    match lastField fs k with
    | some r => some r
    | none => if k' = k then some v' else none

/-- Property access `v[k]`: defined on objects, `undefined` (none)
otherwise.  Access on `null`/`undefined` would throw in JS; every such
access in the modelled code is either behind a truthiness guard, behind
optional chaining, or inside the stream handler's try/catch whose catch
emits nothing, so `none` is observationally faithful there. -/
def getField (v : JsValue) (k : String) : Option JsValue :=
  match v with
  | JsValue.obj fs => lastField fs k
  | _ => none

/-- Index access `v[0]` as used on `choices`: first element of an array,
`undefined` otherwise.  (`"ab"[0]` in JS is `"a"`, but a string choice
leads to no emitted event either way, so `none` is observationally
faithful.) -/
def index0 : JsValue → Option JsValue
  | JsValue.arr (x :: _) => some x
  | _ => none

/-! ### A JSON reader modelling `JSON.parse` on the subset described above -/

/-- JSON insignificant whitespace. -/
def isJsonWs (c : Char) : Bool :=
  c = ' ' || c = '\t' || c = '\n' || c = '\r'

def skipWs : List Char → List Char
  | [] => []
  | c :: cs => if isJsonWs c then skipWs cs else c :: cs

/-- The character denoted by a single-character JSON escape. -/
def escChar (c : Char) : Option Char :=
  if c = '"' then some '"'
  else if c = '\\' then some '\\'
  else if c = '/' then some '/'
  else if c = 'n' then some '\n'
  else if c = 't' then some '\t'
  else if c = 'r' then some '\r'
  else if c = 'b' then some (Char.ofNat 8)
  else if c = 'f' then some (Char.ofNat 12)
  else none

/-- Body of a JSON string after the opening quote; returns the decoded
characters and the input remaining after the closing quote. -/
def readStringBody : List Char → Option (List Char × List Char)
  | [] => none
  | '"' :: cs => some ([], cs)
  | '\\' :: [] => none
  | '\\' :: e :: cs =>
    match escChar e with
    | some ec =>
      match readStringBody cs with
      | some (s, r) => some (ec :: s, r)
      | none => none
    | none => none
  | c :: cs =>
    if c = '\\' then none
    else
      match readStringBody cs with
      | some (s, r) => some (c :: s, r)
      | none => none

/-- Greedily read decimal digits, returning their value and the rest. -/
def readDigits (acc : Nat) : List Char → Nat × List Char
  | [] => (acc, [])
  | c :: cs =>
    if c.isDigit then readDigits (acc * 10 + (c.toNat - 48)) cs
    else (acc, c :: cs)

/-- Read an unsigned integer (at least one digit required). -/
def readNat : List Char → Option (Nat × List Char)
  | [] => none
  | c :: cs =>
    if c.isDigit then some (readDigits 0 (c :: cs)) else none

mutual

/-- Read one JSON value; `fuel` bounds recursion depth. -/
def readValue : Nat → List Char → Option (JsValue × List Char)
  | 0, _ => none
  | Nat.succ fuel, input =>
    match skipWs input with
    | [] => none
    | '"' :: cs =>
      match readStringBody cs with
      | some (s, r) => some (JsValue.str (String.mk s), r)
      | none => none
    | 'n' :: 'u' :: 'l' :: 'l' :: cs => some (JsValue.null, cs)
    | 't' :: 'r' :: 'u' :: 'e' :: cs => some (JsValue.bool true, cs)
    | 'f' :: 'a' :: 'l' :: 's' :: 'e' :: cs => some (JsValue.bool false, cs)
    | '[' :: cs =>
      match skipWs cs with
      | ']' :: r => some (JsValue.arr [], r)
      | cs' =>
        match readItems fuel cs' with
        | some (vs, r) => some (JsValue.arr vs, r)
        | none => none
    | '{' :: cs =>
      match skipWs cs with
      | '}' :: r => some (JsValue.obj [], r)
      | cs' =>
        match readMembers fuel cs' with
        | some (fs, r) => some (JsValue.obj fs, r)
        | none => none
    | '-' :: cs =>
      match readNat cs with
      | some (n, r) => some (JsValue.num (-(n : Int)), r)
      | none => none
    | c :: cs =>
      if c.isDigit then
        match readNat (c :: cs) with
        | some (n, r) => some (JsValue.num (n : Int), r)
        | none => none
      else none

/-- Comma-separated array items followed by a closing bracket. -/
def readItems : Nat → List Char → Option (List JsValue × List Char)
  | 0, _ => none
  | Nat.succ fuel, input =>
    match readValue fuel input with
    | some (v, r) =>
      match skipWs r with
      | ',' :: r' =>
        match readItems fuel r' with
        | some (vs, r'') => some (v :: vs, r'')
        | none => none
      | ']' :: r' => some ([v], r')
      | _ => none
    | none => none

/-- Comma-separated object members followed by a closing brace. -/
def readMembers : Nat → List Char → Option (List (String × JsValue) × List Char)
  | 0, _ => none
  | Nat.succ fuel, input =>
    match skipWs input with
    | '"' :: cs =>
      match readStringBody cs with
      | some (k, r) =>
        match skipWs r with
        | ':' :: r' =>
          match readValue fuel r' with
          | some (v, r'') =>
            match skipWs r'' with
            | ',' :: r3 =>
              match readMembers fuel r3 with
              | some (fs, r4) => some ((String.mk k, v) :: fs, r4)
              | none => none
            | '}' :: r3 => some ([(String.mk k, v)], r3)
            | _ => none
          | none => none
        | _ => none
      | none => none
    | _ => none

end

/-- Model of `JSON.parse` on the text of one `data:` payload: one value,
optionally surrounded by whitespace, consuming the whole input. -/
def jsonParse (s : List Char) : Option JsValue :=
  match readValue (2 * s.length + 2) s with
  | some (v, rest) => if (skipWs rest).isEmpty then some v else none
  | none => none

/-! ### Line splitting, modelling `text.split('\n')` -/

/-- First line of the text and the list of remaining lines. -/
def splitLinesCore : List Char → List Char × List (List Char)
  | [] => ([], [])
  | c :: cs =>
    let p := splitLinesCore cs
    if c = '\n' then ([], p.1 :: p.2) else (c :: p.1, p.2)

/-- Embedding of `text.split('\n')` — always a non-empty list of lines. -/
def splitLines (cs : List Char) : List (List Char) :=
  (splitLinesCore cs).1 :: (splitLinesCore cs).2

/-! ### Stream transcoding
Shared core of `StreamingResponseHandler.transformStreamChunk` /
`mapFinishReason` — the bodies in
`src/lib/anthropic-proxy/streaming-handler.ts` and in `src/lib/auth.ts`
are character-identical, so they are embedded once. -/

/-- Embedding of `mapFinishReason` from the streaming handlers (`switch` on the
reason string, identity default). -/
def mapFinishReason (openRouterReason : String) : String :=
  if openRouterReason = "stop" then "end_turn"
  else if openRouterReason = "length" then "max_tokens"
  else if openRouterReason = "content_filter" then "stop_sequence"
  else openRouterReason

/-- The `switch` of `mapFinishReason` applied to a dynamic value: `===`
matches only equal strings, anything else falls to the default case. -/
def mapFinishReasonJs : JsValue → JsValue
  | JsValue.str s => JsValue.str (mapFinishReason s)
  | v => v

/-- Embedding of `openRouterChunk.usage?.completion_tokens || 0`. -/
def usageOutputTokens (chunk : JsValue) : JsValue :=
  match (getField chunk "usage").bind (fun u => getField u "completion_tokens") with
  | some t => if truthy t then t else JsValue.num 0
  | none => JsValue.num 0

/-- One emitted source-schema stream event.  Each constructor records
exactly the data the handlers put into the JSON object they stringify;
the remaining fields of the wire shape are constants fixed by the
constructor (e.g. `index: 0`, `delta.type: "text_delta"`, the
`message_start` envelope's empty content and zeroed usage). -/
inductive StreamEvent where
  | contentBlockDelta (text : JsValue) : StreamEvent
  | messageStart (id : Option JsValue) (model : Option JsValue) : StreamEvent
  | messageDelta (stopReason : JsValue) (outputTokens : JsValue) : StreamEvent
  | messageStop : StreamEvent

/-- The checks following the `delta` branch of `transformStreamChunk`:
`message` first, then `finish_reason`, else no event. -/
def transformAfterDelta (chunk choice : JsValue) : Option StreamEvent :=
  if truthyO (getField choice "message") then
    some (StreamEvent.messageStart (getField chunk "id") (getField chunk "model"))
  else
    match getField choice "finish_reason" with
    | some fr =>
      if truthy fr then
        some (StreamEvent.messageDelta (mapFinishReasonJs fr) (usageOutputTokens chunk))
      else none
    | none => none

/-- Embedding of `transformStreamChunk`: classify one parsed target frame. -/
def transformStreamChunk (chunk : JsValue) : Option StreamEvent :=
  let choicesO := getField chunk "choices"
  if truthyO choicesO && truthyO (choicesO.bind index0) then
    match choicesO.bind index0 with
    | some choice =>
      let contentO :=
        match getField choice "delta" with
        | some delta => if truthy delta then getField delta "content" else none
        | none => none
      match contentO with
      | some content =>
        if truthy content then some (StreamEvent.contentBlockDelta content)
        else transformAfterDelta chunk choice
      | none => transformAfterDelta chunk choice
    | none => none
  else none

/-- One write made by a stream handler, with its exact byte rendering:
`data ev` is `"data: " ++ JSON.stringify ev ++ "\n\n"`,
`eventMessageStop` is `"event: message_stop\n\n"`, `blank` is `"\n"`.
Distinct frames render to distinct byte strings, so equality of frame
sequences is equality of the emitted bytes. -/
inductive Frame where
  | data (ev : StreamEvent) : Frame
  | eventMessageStop : Frame
  | blank : Frame

/-- The characters of `"data: "`. -/
def dataTag : List Char := ("data: ").data

/-- The characters of the `[DONE]` sentinel. -/
def doneTag : List Char := ("[DONE]").data

/-- Embedding of `line.startsWith('data: ')`. -/
def startsWithData (line : List Char) : Bool :=
  dataTag.isPrefixOf line

/-- Whitespace removed by `String.prototype.trim`. -/
def isJsSpace (c : Char) : Bool :=
  c = ' ' || c = '\t' || c = '\n' || c = '\r' || c = '\x0b' || c = '\x0c'

/-- Embedding of `line.trim() === ''`. -/
def isBlankLine (line : List Char) : Bool :=
  line.all isJsSpace

/-- Frames enqueued for one line by the edge handler
(`StreamingResponseHandler.handleStream`): `[DONE]` enqueues the
`message_stop` data frame followed by an `event: message_stop` frame and
continues; parsed frames enqueue the transformed event; parse failures
are skipped; blank (whitespace-only) lines are passed through as a bare
newline; other lines are dropped. -/
def edgeLineFrames (line : List Char) : List Frame :=
  if startsWithData line then
    let payload := line.drop 6
    if payload = doneTag then [Frame.data StreamEvent.messageStop, Frame.eventMessageStop]
    else
      match jsonParse payload with
      | some parsed =>
        match transformStreamChunk parsed with
        | some ev => [Frame.data ev]
        | none => []
      | none => []
  else if isBlankLine line then [Frame.blank]
  else []

/-- Frames written for one line by the Express handler
(`handleStreamingResponse` in `src/lib/auth.ts`): identical to the edge
handler on `data:` lines except that `[DONE]` writes only the
`message_stop` data frame (the `event:` line is deliberately omitted),
and non-`data:` lines — including blank ones — write nothing. -/
def expressLineFrames (line : List Char) : List Frame :=
  if startsWithData line then
    let payload := line.drop 6
    if payload = doneTag then [Frame.data StreamEvent.messageStop]
    else
      match jsonParse payload with
      | some parsed =>
        match transformStreamChunk parsed with
        | some ev => [Frame.data ev]
        | none => []
      | none => []
  else []

/-- Frames produced by one edge `transform` callback invocation:
decode, split on newline, process every resulting segment (the final
non-newline-terminated segment is processed immediately, not buffered). -/
def edgeChunkFrames (text : List Char) : List Frame :=
  (splitLines text).flatMap edgeLineFrames

/-- Frames produced by one iteration of the Express read loop. -/
def expressChunkFrames (text : List Char) : List Frame :=
  (splitLines text).flatMap expressLineFrames

/-- Frames produced by the edge handler over a whole chunk sequence. -/
def edgeStreamFrames (chunks : List (List Char)) : List Frame :=
  chunks.flatMap edgeChunkFrames

/-- Frames produced by the Express handler over a whole chunk sequence. -/
def expressStreamFrames (chunks : List (List Char)) : List Frame :=
  chunks.flatMap expressChunkFrames

/-! ### Request / response transcoding
Embedding of `src/lib/anthropic-proxy/request-handler.ts`.  Optional
numeric request parameters only matter through presence/absence here, so
JS numbers are modelled as `Int`. -/

/-- One element of an Anthropic message's content-block array
(`\x7b type: string; text?: string; ... \x7d`). -/
structure SrcContentBlock where
  type : String
  text : Option String

/-- Embedding of `string | Array<block>` content of an Anthropic message. -/
inductive SrcContent where
  | str (s : String) : SrcContent
  | blocks (bs : List SrcContentBlock) : SrcContent

inductive SrcRole where
  | user : SrcRole
  | assistant : SrcRole
deriving DecidableEq

/-- Embedding of `AnthropicMessage`. -/
structure AnthropicMessage where
  role : SrcRole
  content : SrcContent

inductive ORRole where
  | user : ORRole
  | assistant : ORRole
  | system : ORRole
deriving DecidableEq

/-- Embedding of `OpenRouterMessage`. -/
structure OpenRouterMessage where
  role : ORRole
  content : String
deriving DecidableEq

/-- Embedding of `AnthropicRequest`. -/
structure AnthropicRequest where
  model : String
  messages : List AnthropicMessage
  max_tokens : Option Int := none
  temperature : Option Int := none
  top_p : Option Int := none
  top_k : Option Int := none
  metadata : Option JsValue := none
  stop_sequences : Option (List String) := none
  stream : Option Bool := none
  system : Option String := none

/-- Embedding of `OpenRouterRequest` (`stream` is always set by the transcoder). -/
structure OpenRouterRequest where
  model : String
  messages : List OpenRouterMessage
  max_tokens : Option Int
  temperature : Option Int
  top_p : Option Int
  stream : Bool
  stop : Option (List String)

/-- The string fragments `extractContent` collects from a block array:
`text` blocks with truthy text contribute their text, `image` blocks
contribute the fixed placeholder, everything else is dropped. -/
def blockParts : List SrcContentBlock → List String
  | [] => []
  | b :: bs =>
    (match b.text with
     | some t => if b.type = "text" ∧ t ≠ "" then [t] else []
     | none => []) ++
    (if b.type = "image" then ["[Image content not supported in this proxy]"] else []) ++
    blockParts bs

/-- Embedding of `extractContent`: flatten message content to a single string
(string content passes through; block arrays are joined with `\n`). -/
def extractContent : SrcContent → String
  | SrcContent.str s => s
  | SrcContent.blocks bs => String.intercalate "\n" (blockParts bs)

def roleToOR : SrcRole → ORRole
  | SrcRole.user => ORRole.user
  | SrcRole.assistant => ORRole.assistant

/-- Embedding of `AnthropicRequestHandler.transformToOpenRouter`.  Note the JS
truthiness tests taken verbatim from the source: `if (this.request.system)`
skips an *empty* system string, and `if (this.request.stop_sequences)`
copies any present array (a JS array is always truthy, even when empty). -/
def transformToOpenRouter (request : AnthropicRequest) : OpenRouterRequest :=
  let sysMessages : List OpenRouterMessage :=
    match request.system with
    | some s => if s ≠ "" then [{ role := ORRole.system, content := s }] else []
    | none => []
  { model := request.model
    messages := sysMessages ++
      request.messages.map (fun m => { role := roleToOR m.role, content := extractContent m.content })
    max_tokens := request.max_tokens
    temperature := request.temperature
    top_p := request.top_p
    stream := request.stream.getD false
    stop := request.stop_sequences }

/-- Embedding of `OpenRouterResponse.choices[i].message`. -/
structure ORMessage where
  role : String
  content : String
deriving DecidableEq

structure ORChoice where
  index : Int
  message : ORMessage
  finish_reason : String
deriving DecidableEq

structure ORUsage where
  prompt_tokens : Int
  completion_tokens : Int
  total_tokens : Int
deriving DecidableEq

/-- Embedding of `OpenRouterResponse`.  The TS interface declares `choices` as a
required array, but nothing checks the upstream body at runtime, so the
embedding keeps `choices` optional: `none` models a response in which
the field is absent (`undefined`). -/
structure OpenRouterResponse where
  id : String
  object : String
  created : Int
  model : String
  choices : Option (List ORChoice)
  usage : Option ORUsage
deriving DecidableEq

structure AnthTextBlock where
  type : String
  text : String
deriving DecidableEq

structure AnthUsage where
  input_tokens : Int
  output_tokens : Int
deriving DecidableEq

/-- Embedding of `AnthropicResponse`. -/
structure AnthropicResponse where
  id : String
  type : String
  role : String
  content : List AnthTextBlock
  model : String
  stop_reason : Option String
  stop_sequence : Option String
  usage : AnthUsage
deriving DecidableEq

/-- How a call to `transformToAnthropicResponse` can fail.
`typeError` is an uncaught JavaScript `TypeError` (reading a property of
`undefined`) — an untyped crash.  `malformedUpstream` is the typed
`MalformedUpstream` error described by the specification; the code
contains no such error and never produces this value. -/
inductive TransformFailure where
  | typeError : TransformFailure
  | malformedUpstream : TransformFailure
deriving DecidableEq

/-- Embedding of `mapFinishReason` as duplicated in `request-handler.ts` (declared
`string | null` there but every branch returns a string). -/
def mapFinishReasonRH (openRouterReason : String) : String :=
  if openRouterReason = "stop" then "end_turn"
  else if openRouterReason = "length" then "max_tokens"
  else if openRouterReason = "content_filter" then "stop_sequence"
  else openRouterReason

/-- Embedding of `x || 0` on a possibly-undefined JS number. -/
def jsNumOrZero : Option Int → Int
  | some n => if n ≠ 0 then n else 0
  | none => 0

/-- Embedding of `AnthropicRequestHandler.transformToAnthropicResponse`.
`openRouterResponse.choices[0]` with `choices` absent throws reading
property `0` of `undefined`; with `choices` empty, `choice` is
`undefined` and `choice.message` throws.  Both are modelled by
`TransformFailure.typeError`. -/
def transformToAnthropicResponse (request : AnthropicRequest)
    (openRouterResponse : OpenRouterResponse) :
    Except TransformFailure AnthropicResponse :=
  match openRouterResponse.choices with
  | none => Except.error TransformFailure.typeError
  | some [] => Except.error TransformFailure.typeError
  | some (choice :: _) =>
    Except.ok
      { id := openRouterResponse.id
        type := "message"
        role := "assistant"
        content := [{ type := "text", text := choice.message.content }]
        model := request.model
        stop_reason := some (mapFinishReasonRH choice.finish_reason)
        stop_sequence := none
        usage :=
          { input_tokens := jsNumOrZero ((openRouterResponse.usage).map ORUsage.prompt_tokens)
            output_tokens := jsNumOrZero ((openRouterResponse.usage).map ORUsage.completion_tokens) } }

/-! ### Admission layer
Embedding of `validateApiKey` / `checkRateLimit`
(`src/lib/auth.ts` lines 7–71; the edge copy in
`src/lib/anthropic-proxy/auth.ts` has the same logic).  The module-level
`Map`s become explicit association tables threaded through each call;
`Date.now()` becomes an explicit `now` argument in milliseconds.
`hashApiKey` is an external SHA-256 digest; it enters only as an opaque
function argument. -/

/-- Embedding of `Map.get` on an association table (keys are unique because `tset`
replaces in place). -/
def tlookup {α : Type} : List (String × α) → String → Option α
  | [], _ => none
  | (k', v) :: es, k => if k' = k then some v else tlookup es k

/-- Embedding of `Map.set`: replace the binding if present, else append. -/
def tset {α : Type} : List (String × α) → String → α → List (String × α)
  | [], k, v => [(k, v)]
  | (k', v') :: es, k, v =>
    if k' = k then (k, v) :: es else (k', v') :: tset es k v

/-- An entry of `apiKeyCache`. -/
structure ApiKeyCacheEntry where
  valid : Bool
  expiresAt : Nat
deriving DecidableEq

/-- Embedding of `CACHE_TTL = 5 * 60 * 1000`. -/
def CACHE_TTL : Nat := 5 * 60 * 1000

/-- The validity policy evaluated on a cache miss: format check
(`sk-ant-` and length > 40), allow-list membership, development
sentinel, OR-combined. -/
def apiKeyPolicy (validKeys : List String) (apiKey : String) : Bool :=
  (("sk-ant-").data.isPrefixOf apiKey.data && decide (apiKey.length > 40))
    || validKeys.contains apiKey
    || apiKey == "test-api-key-123"

/-- Embedding of `validateApiKey`, instrumented with the spec's counting stub:
`policyRuns` counts evaluations of the validity policy (a cache hit
within TTL returns the memoized boolean without incrementing it).
Returns the boolean, the updated cache and the updated counter. -/
def validateApiKey (validKeys : List String) (now : Nat) (apiKey : String)
    (cache : List (String × ApiKeyCacheEntry)) (policyRuns : Nat) :
    Bool × List (String × ApiKeyCacheEntry) × Nat :=
  let recompute : Bool × List (String × ApiKeyCacheEntry) × Nat :=
    let isValid := apiKeyPolicy validKeys apiKey
    (isValid, tset cache apiKey { valid := isValid, expiresAt := now + CACHE_TTL }, policyRuns + 1)
  match tlookup cache apiKey with
  | some cached => if cached.expiresAt > now then (cached.valid, cache, policyRuns) else recompute
  | none => recompute

/-- An entry of `rateLimitMap`. -/
structure RateWindowEntry where
  count : Nat
  resetAt : Nat
deriving DecidableEq

/-- Embedding of `RATE_LIMIT = 100`. -/
def RATE_LIMIT : Nat := 100

/-- Embedding of `RATE_WINDOW = 60 * 1000`. -/
def RATE_WINDOW : Nat := 60 * 1000

/-- The value returned by `checkRateLimit`. -/
structure RateLimitResult where
  allowed : Bool
  remaining : Int
  resetAt : Nat
deriving DecidableEq

/-- Embedding of `checkRateLimit`: look up the window for the hashed key; create a
fresh window when absent or expired; increment its count
unconditionally; report `allowed = count <= 100` and
`remaining = max(0, 100 - count)`. -/
def checkRateLimit (hash : String → String) (now : Nat) (apiKey : String)
    (table : List (String × RateWindowEntry)) :
    RateLimitResult × List (String × RateWindowEntry) :=
  let keyHash := hash apiKey
  let base : RateWindowEntry :=
    match tlookup table keyHash with
    | some limit =>
      if limit.resetAt < now then { count := 0, resetAt := now + RATE_WINDOW } else limit
    | none => { count := 0, resetAt := now + RATE_WINDOW }
  let limit : RateWindowEntry := { base with count := base.count + 1 }
  ({ allowed := decide (limit.count ≤ RATE_LIMIT)
     remaining := max 0 ((RATE_LIMIT : Int) - (limit.count : Int))
     resetAt := limit.resetAt },
   tset table keyHash limit)

/-- A sequence of `checkRateLimit` calls for one key at the given times,
threading the table; returns the results in order. -/
def rateCallSeq (hash : String → String) (apiKey : String) :
    List Nat → List (String × RateWindowEntry) →
    List RateLimitResult × List (String × RateWindowEntry)
  | [], table => ([], table)
  | now :: laterTimes, table =>
    let step := checkRateLimit hash now apiKey table
    let rest := rateCallSeq hash apiKey laterTimes step.2
    (step.1 :: rest.1, rest.2)

/-- Whether a frame is a `data:` frame (as opposed to the edge
handler's extra `event: message_stop` frame or forwarded newline). -/
def isDataFrame : Frame → Bool
  | Frame.data _ => true
  | Frame.eventMessageStop => false
  | Frame.blank => false

/-! ## Claims -/

/-- C8: the finish-reason mapping maps `stop` to `end_turn`, `length` to
`max_tokens`, `content_filter` to `stop_sequence` and every other string
to itself; it is total, and the copy in the request handler agrees with
the copy in the streaming handlers pointwise. -/
theorem c8_finish_reason_mapping :
    mapFinishReason "stop" = "end_turn" ∧
    mapFinishReason "length" = "max_tokens" ∧
    mapFinishReason "content_filter" = "stop_sequence" ∧
    (∀ s : String, s ≠ "stop" → s ≠ "length" → s ≠ "content_filter" →
      mapFinishReason s = s) ∧
    (∀ s : String, mapFinishReasonRH s = mapFinishReason s) := by
  refine ⟨rfl, rfl, rfl, ?_, fun s => rfl⟩
  intro s h1 h2 h3
  simp [mapFinishReason, h1, h2, h3]

/-- C8 witness: the identity default evaluated at the concrete input
`"tool_calls"`. -/
theorem c8_witness : mapFinishReason "tool_calls" = "tool_calls" :=
  c8_finish_reason_mapping.2.2.2.1 "tool_calls" (by decide) (by decide) (by decide)

/-- C6: whenever the response transcoder succeeds, the produced
response's `model` is the original request's model string, for every
upstream response (in particular independent of the model the upstream
echoes). -/
theorem c6_model_round_trip :
    ∀ (request : AnthropicRequest) (resp : OpenRouterResponse)
      (c : ORChoice) (cs : List ORChoice),
      resp.choices = some (c :: cs) →
      (transformToAnthropicResponse request resp).map AnthropicResponse.model
        = Except.ok request.model := by
  intro request resp c cs h
  simp [transformToAnthropicResponse, h, Except.map]

/-- C6 witness: a request for `"claude-3-opus"` answered by an upstream
response echoing the different model `"upstream/gpt"` transcodes to a
response whose `model` is `"claude-3-opus"`. -/
theorem c6_witness :
    "upstream/gpt" ≠ "claude-3-opus" ∧
    (transformToAnthropicResponse { model := "claude-3-opus", messages := [] }
        { id := "gen-1", object := "chat.completion", created := 0,
          model := "upstream/gpt",
          choices := some [⟨0, ⟨"assistant", "hello"⟩, "stop"⟩],
          usage := none }).map AnthropicResponse.model
      = Except.ok "claude-3-opus" :=
  ⟨by decide, c6_model_round_trip _ _ _ _ rfl⟩

/-- C3 counterexample: on a response with an empty `choices` array the
transcoder fails with an untyped `TypeError` crash (reading `.message`
of `undefined`), which is not the typed `MalformedUpstream` failure the
claim asserts. -/
theorem c3_counterexample :
    transformToAnthropicResponse { model := "m", messages := [] }
        { id := "gen-0", object := "chat.completion", created := 0, model := "u",
          choices := some [], usage := none }
      = Except.error TransformFailure.typeError ∧
    (Except.error TransformFailure.typeError :
        Except TransformFailure AnthropicResponse)
      ≠ Except.error TransformFailure.malformedUpstream :=
  ⟨rfl, by simp⟩

/-- C3 amended: with `choices` absent or empty,
`transformToAnthropicResponse` fails with an untyped `TypeError` crash
(not a typed `MalformedUpstream` error); with at least one choice it
succeeds. -/
theorem c3_amended_choices_crash_or_success :
    ∀ (request : AnthropicRequest) (resp : OpenRouterResponse),
      ((resp.choices = none ∨ resp.choices = some []) →
        transformToAnthropicResponse request resp
          = Except.error TransformFailure.typeError) ∧
      (∀ (c : ORChoice) (cs : List ORChoice), resp.choices = some (c :: cs) →
        (transformToAnthropicResponse request resp).isOk = true) := by
  intro request resp
  constructor
  · rintro (h | h) <;> simp [transformToAnthropicResponse, h]
  · intro c cs h
    simp [transformToAnthropicResponse, h, Except.isOk, Except.toBool]

/-- C3 witness: the amended claim evaluated at a response with absent
`choices` and at a response with one choice. -/
theorem c3_witness :
    transformToAnthropicResponse { model := "m", messages := [] }
        { id := "g", object := "o", created := 0, model := "u",
          choices := none, usage := none }
      = Except.error TransformFailure.typeError ∧
    (transformToAnthropicResponse { model := "m", messages := [] }
        { id := "g", object := "o", created := 0, model := "u",
          choices := some [⟨0, ⟨"assistant", "ok"⟩, "stop"⟩],
          usage := none }).isOk = true :=
  ⟨(c3_amended_choices_crash_or_success _ _).1 (Or.inl rfl),
   (c3_amended_choices_crash_or_success _ _).2 _ _ rfl⟩

/-- C7 counterexample: a request whose `system` field is present but
empty does *not* get a system message prepended — `if
(this.request.system)` is a JS truthiness test and the empty string is
falsy — refuting the claim for that input. -/
theorem c7_counterexample :
    (transformToOpenRouter
      { model := "m", messages := [{ role := SrcRole.user, content := SrcContent.str "Hi" }],
        system := some "", stream := some false }).messages
      = [{ role := ORRole.user, content := "Hi" }] ∧
    ({ role := ORRole.user, content := "Hi" } : OpenRouterMessage)
      ≠ { role := ORRole.system, content := "" } :=
  ⟨rfl, by decide⟩

/-- C7 amended: if `system` is present *and non-empty*, the target
message list is the system message followed by the transcoded source
messages in their original relative order. -/
theorem c7_amended_system_prepended :
    ∀ (request : AnthropicRequest) (s : String),
      request.system = some s → s ≠ "" →
      (transformToOpenRouter request).messages
        = { role := ORRole.system, content := s } ::
            request.messages.map
              (fun m => { role := roleToOR m.role, content := extractContent m.content }) := by
  intro request s hs hne
  simp [transformToOpenRouter, hs, hne]

/-- C7 witness: the specification's example scenario, evaluated. -/
theorem c7_witness :
    (transformToOpenRouter
      { model := "m", messages := [{ role := SrcRole.user, content := SrcContent.str "Hi" }],
        system := some "Be terse", stream := some false }).messages
      = [{ role := ORRole.system, content := "Be terse" },
         { role := ORRole.user, content := "Hi" }] := by
  have h := c7_amended_system_prepended
    { model := "m",
      messages := [{ role := SrcRole.user, content := SrcContent.str "Hi" }],
      system := some "Be terse", stream := some false } "Be terse" rfl (by decide)
  simpa using h

/-! ### Table lemmas shared by the admission-layer claims -/

lemma tlookup_tset_same {α : Type} (t : List (String × α)) (k : String) (v : α) :
    tlookup (tset t k v) k = some v := by
  induction t with
  | nil => simp [tset, tlookup]
  | cons e es ih =>
    obtain ⟨k', v'⟩ := e
    by_cases h : k' = k <;> simp [tset, tlookup, h, ih]

/-- C9: a second `validateApiKey` call for the same key within the
5-minute TTL of the entry written by the first call returns the same
boolean and re-runs nothing: the validity policy is not re-evaluated
(`policyRuns` unchanged) and the cache is unchanged. -/
theorem c9_validate_memoization :
    ∀ (validKeys : List String) (now1 now2 : Nat) (apiKey : String)
      (cache : List (String × ApiKeyCacheEntry)) (policyRuns : Nat),
      (∀ e : ApiKeyCacheEntry, tlookup cache apiKey = some e → e.expiresAt ≤ now1) →
      now2 < now1 + CACHE_TTL →
      validateApiKey validKeys now2 apiKey
          (validateApiKey validKeys now1 apiKey cache policyRuns).2.1
          (validateApiKey validKeys now1 apiKey cache policyRuns).2.2
        = validateApiKey validKeys now1 apiKey cache policyRuns := by
  intro validKeys now1 now2 apiKey cache policyRuns hstale hlt
  have hfirst : validateApiKey validKeys now1 apiKey cache policyRuns
      = (apiKeyPolicy validKeys apiKey,
         tset cache apiKey
           { valid := apiKeyPolicy validKeys apiKey, expiresAt := now1 + CACHE_TTL },
         policyRuns + 1) := by
    unfold validateApiKey
    cases h : tlookup cache apiKey with
    | none => simp
    | some e =>
      have he := hstale e h
      have : ¬ (e.expiresAt > now1) := by omega
      simp [this]
  rw [hfirst]
  unfold validateApiKey
  rw [tlookup_tset_same]
  simp [hlt]

/-- C9 witness: the allow-listed key `"abc"` validated at t=100ms and
re-validated at t=200ms — the first call returns `true`, runs the policy
once and writes the cache; the second call changes nothing. -/
theorem c9_witness :
    (validateApiKey ["abc"] 100 "abc" [] 0).1 = true ∧
    validateApiKey ["abc"] 200 "abc"
        (validateApiKey ["abc"] 100 "abc" [] 0).2.1
        (validateApiKey ["abc"] 100 "abc" [] 0).2.2
      = validateApiKey ["abc"] 100 "abc" [] 0 :=
  ⟨rfl, c9_validate_memoization ["abc"] 100 200 "abc" [] 0
      (fun e h => by simp [tlookup] at h) (by decide)⟩

/-! ### Rate-limit lemmas -/

lemma checkRateLimit_within (hash : String → String) (apiKey : String) (now : Nat)
    (table : List (String × RateWindowEntry)) (c R : Nat)
    (hlook : tlookup table (hash apiKey) = some ⟨c, R⟩) (hnow : now ≤ R) :
    checkRateLimit hash now apiKey table
      = ({ allowed := decide (c + 1 ≤ RATE_LIMIT)
           remaining := max 0 ((RATE_LIMIT : Int) - ((c + 1 : Nat) : Int))
           resetAt := R },
         tset table (hash apiKey) ⟨c + 1, R⟩) := by
  have hR : ¬ (R < now) := by omega
  simp [checkRateLimit, hlook, hR]

lemma checkRateLimit_fresh (hash : String → String) (apiKey : String) (now : Nat)
    (table : List (String × RateWindowEntry))
    (hlook : tlookup table (hash apiKey) = none) :
    checkRateLimit hash now apiKey table
      = ({ allowed := true, remaining := 99, resetAt := now + RATE_WINDOW },
         tset table (hash apiKey) ⟨1, now + RATE_WINDOW⟩) := by
  simp [checkRateLimit, hlook, RATE_LIMIT]

lemma checkRateLimit_expired (hash : String → String) (apiKey : String) (now : Nat)
    (table : List (String × RateWindowEntry)) (c R : Nat)
    (hlook : tlookup table (hash apiKey) = some ⟨c, R⟩) (hexp : R < now) :
    checkRateLimit hash now apiKey table
      = ({ allowed := true, remaining := 99, resetAt := now + RATE_WINDOW },
         tset table (hash apiKey) ⟨1, now + RATE_WINDOW⟩) := by
  simp [checkRateLimit, hlook, hexp, RATE_LIMIT]

/-- Steady-state call sequence: starting from a live window with count
`c` and reset time `R`, the `n`-th further call (all within `R`) reports
count `c + n + 1`. -/
lemma rateCallSeq_steady (hash : String → String) (apiKey : String) :
    ∀ (times : List Nat) (table : List (String × RateWindowEntry)) (c R : Nat),
      tlookup table (hash apiKey) = some ⟨c, R⟩ →
      (∀ t ∈ times, t ≤ R) →
      ∀ n, n < times.length →
        (rateCallSeq hash apiKey times table).1[n]?
          = some { allowed := decide (c + n + 1 ≤ RATE_LIMIT)
                   remaining := max 0 ((RATE_LIMIT : Int) - ((c + n + 1 : Nat) : Int))
                   resetAt := R } := by
  intro times
  induction times with
  | nil => intro table c R _ _ n hn; simp at hn
  | cons t ts ih =>
    intro table c R hlook hwithin n hn
    have ht : t ≤ R := hwithin t (by simp)
    have hstep := checkRateLimit_within hash apiKey t table c R hlook ht
    have hunfold : rateCallSeq hash apiKey (t :: ts) table
        = ((checkRateLimit hash t apiKey table).1 ::
            (rateCallSeq hash apiKey ts (checkRateLimit hash t apiKey table).2).1,
           (rateCallSeq hash apiKey ts (checkRateLimit hash t apiKey table).2).2) := rfl
    cases n with
    | zero =>
      rw [hunfold]
      simp only [List.getElem?_cons_zero, hstep]
    | succ m =>
      have hm : m < ts.length := by simpa using hn
      have hrec := ih (tset table (hash apiKey) ⟨c + 1, R⟩) (c + 1) R
        (tlookup_tset_same _ _ _) (fun x hx => hwithin x (by simp [hx])) m hm
      rw [hunfold]
      simp only [List.getElem?_cons_succ, hstep]
      rw [show c + (m + 1) + 1 = c + 1 + m + 1 by omega]
      exact hrec

/-- C5: fixed-window rate limiting.  (i) Starting from no window for the
key, the `N`-th call (`N = n+1`) made while the window's `resetAt` has
not passed returns `allowed = (N ≤ 100)`, `remaining = max(0, 100-N)`
and the first call's reset time — in particular the 101st call is
rejected.  (ii) A call after the stored `resetAt` has passed creates a
fresh window and counts as the first call (`remaining = 99`).  (iii) The
stored count is incremented on every call, including rejected ones. -/
theorem c5_rate_window_correctness :
    (∀ (hash : String → String) (apiKey : String) (t1 : Nat) (ts : List Nat)
       (table : List (String × RateWindowEntry)),
       tlookup table (hash apiKey) = none →
       (∀ t ∈ ts, t ≤ t1 + RATE_WINDOW) →
       ∀ n, n < (t1 :: ts).length →
         (rateCallSeq hash apiKey (t1 :: ts) table).1[n]?
           = some { allowed := decide (n + 1 ≤ RATE_LIMIT)
                    remaining := max 0 ((RATE_LIMIT : Int) - ((n + 1 : Nat) : Int))
                    resetAt := t1 + RATE_WINDOW }) ∧
    (∀ (hash : String → String) (apiKey : String) (now : Nat)
       (table : List (String × RateWindowEntry)) (limit : RateWindowEntry),
       tlookup table (hash apiKey) = some limit → limit.resetAt < now →
       (checkRateLimit hash now apiKey table).1
         = { allowed := true, remaining := 99, resetAt := now + RATE_WINDOW }) ∧
    (∀ (hash : String → String) (apiKey : String) (now : Nat)
       (table : List (String × RateWindowEntry)),
       (tlookup (checkRateLimit hash now apiKey table).2 (hash apiKey)).map RateWindowEntry.count
         = some ((match tlookup table (hash apiKey) with
                  | some limit => if limit.resetAt < now then 0 else limit.count
                  | none => 0) + 1)) := by
  refine ⟨?_, ?_, ?_⟩
  · intro hash apiKey t1 ts table hlook hwithin n hn
    have hstep := checkRateLimit_fresh hash apiKey t1 table hlook
    have hunfold : rateCallSeq hash apiKey (t1 :: ts) table
        = ((checkRateLimit hash t1 apiKey table).1 ::
            (rateCallSeq hash apiKey ts (checkRateLimit hash t1 apiKey table).2).1,
           (rateCallSeq hash apiKey ts (checkRateLimit hash t1 apiKey table).2).2) := rfl
    cases n with
    | zero =>
      rw [hunfold]
      simp only [List.getElem?_cons_zero, hstep]
      norm_num [RATE_LIMIT]
    | succ m =>
      have hm : m < ts.length := by simpa using hn
      have hrec := rateCallSeq_steady hash apiKey ts
        (tset table (hash apiKey) ⟨1, t1 + RATE_WINDOW⟩) 1 (t1 + RATE_WINDOW)
        (tlookup_tset_same _ _ _) hwithin m hm
      rw [hunfold]
      simp only [List.getElem?_cons_succ, hstep]
      rw [show m + 1 + 1 = 1 + m + 1 by omega]
      exact hrec
  · intro hash apiKey now table limit hlook hexp
    obtain ⟨c, R⟩ := limit
    have := checkRateLimit_expired hash apiKey now table c R hlook hexp
    rw [this]
  · intro hash apiKey now table
    cases hlook : tlookup table (hash apiKey) with
    | none =>
      rw [checkRateLimit_fresh hash apiKey now table hlook]
      simp [tlookup_tset_same]
    | some limit =>
      obtain ⟨c, R⟩ := limit
      by_cases hexp : R < now
      · rw [checkRateLimit_expired hash apiKey now table c R hlook hexp]
        simp [tlookup_tset_same, hexp]
      · have hle : now ≤ R := by omega
        rw [checkRateLimit_within hash apiKey now table c R hlook hle]
        simp [tlookup_tset_same, hexp]

/-- C5 witness: 101 calls at time 0 from an empty table — the 101st is
rejected with `remaining = 0`; a call at t=70000ms against a window that
reset at t=60000ms counts as a fresh first call; a rejected call (count
already 100) still increments the stored count to 101. -/
theorem c5_witness :
    (rateCallSeq id "k" (0 :: List.replicate 100 0) []).1[100]?
      = some { allowed := false, remaining := 0, resetAt := 60000 } ∧
    (checkRateLimit id 70000 "k" [("k", ⟨5, 60000⟩)]).1
      = { allowed := true, remaining := 99, resetAt := 130000 } ∧
    (tlookup (checkRateLimit id 50 "k" [("k", ⟨100, 99999⟩)]).2 "k").map RateWindowEntry.count
      = some 101 := by
  refine ⟨?_, ?_, ?_⟩
  · have h := c5_rate_window_correctness.1 id "k" 0 (List.replicate 100 0) [] rfl
      (by intro t ht; rw [List.eq_of_mem_replicate ht]; simp) 100 (by simp)
    simpa [RATE_LIMIT, RATE_WINDOW] using h
  · exact c5_rate_window_correctness.2.1 id "k" 70000 [("k", ⟨5, 60000⟩)] ⟨5, 60000⟩
      (by simp [tlookup]) (by norm_num)
  · exact c5_rate_window_correctness.2.2 id "k" 50 [("k", ⟨100, 99999⟩)]

/-- C2 counterexample: a single chunk containing `data: [DONE]` followed
by a valid delta line — the handler's `continue` keeps processing, so
the later line still produces an event after the `message_stop`,
refuting "no further lines of the same call are processed". -/
theorem c2_counterexample :
    expressChunkFrames
        ("data: [DONE]\ndata: \x7b\"choices\":[\x7b\"delta\":\x7b\"content\":\"Hi\"\x7d\x7d]\x7d\n").data
      = [Frame.data StreamEvent.messageStop,
         Frame.data (StreamEvent.contentBlockDelta (JsValue.str "Hi"))] ∧
    [Frame.data StreamEvent.messageStop,
     Frame.data (StreamEvent.contentBlockDelta (JsValue.str "Hi"))]
      ≠ [Frame.data StreamEvent.messageStop] :=
  ⟨rfl, by simp⟩

/-- C2 amended: each complete `data: [DONE]` line contributes exactly
one `message_stop` event, but it is not terminal — lines before and
after it in the same call are processed unchanged. -/
theorem c2_amended_done_line :
    ∀ before after : List (List Char),
      (before ++ ("data: [DONE]").data :: after).flatMap expressLineFrames
        = before.flatMap expressLineFrames ++
            Frame.data StreamEvent.messageStop :: after.flatMap expressLineFrames := by
  intro before after
  rw [List.flatMap_append, List.flatMap_cons]
  rfl

/-- C10: a complete `data: ` line whose payload fails to parse as JSON
contributes no event and does not disturb the processing of the
surrounding lines. -/
theorem c10_malformed_line_skipped :
    ∀ (payload : List Char) (before after : List (List Char)),
      jsonParse payload = none → payload ≠ doneTag →
      (before ++ (dataTag ++ payload) :: after).flatMap expressLineFrames
        = before.flatMap expressLineFrames ++ after.flatMap expressLineFrames := by
  intro payload before after hp hd
  have hpref : startsWithData (dataTag ++ payload) = true := by
    simp [startsWithData, List.isPrefixOf_iff_prefix]
  have hdrop : (dataTag ++ payload).drop 6 = payload := by
    have h6 : dataTag.length = 6 := rfl
    rw [← h6, List.drop_left]
  have hline : expressLineFrames (dataTag ++ payload) = [] := by
    simp [expressLineFrames, hpref, hdrop, hd, hp]
  rw [List.flatMap_append, List.flatMap_cons, hline]
  simp

/-- C10 witness: a malformed payload followed by a valid delta line —
the malformed line is dropped and the later line still produces its
event. -/
theorem c10_witness :
    jsonParse ("\x7b\"choices\":oops").data = none ∧
    (([] : List (List Char)) ++
        (dataTag ++ ("\x7b\"choices\":oops").data) ::
          [("data: \x7b\"choices\":[\x7b\"delta\":\x7b\"content\":\"Hi\"\x7d\x7d]\x7d").data]).flatMap
        expressLineFrames
      = [Frame.data (StreamEvent.contentBlockDelta (JsValue.str "Hi"))] := by
  refine ⟨rfl, ?_⟩
  have h := c10_malformed_line_skipped ("\x7b\"choices\":oops").data []
    [("data: \x7b\"choices\":[\x7b\"delta\":\x7b\"content\":\"Hi\"\x7d\x7d]\x7d").data] rfl
    (by decide)
  exact h.trans rfl

/-- C4 counterexample: on the single chunk `data: [DONE]\n` the edge
handler emits three frames (the `message_stop` data frame, an extra
`event: message_stop` frame, and a forwarded newline for the trailing
blank segment) while the Express handler emits only the data frame, so
the two implementations do not produce identical output bytes. -/
theorem c4_counterexample :
    edgeStreamFrames [("data: [DONE]\n").data]
      = [Frame.data StreamEvent.messageStop, Frame.eventMessageStop, Frame.blank] ∧
    expressStreamFrames [("data: [DONE]\n").data] = [Frame.data StreamEvent.messageStop] ∧
    ([Frame.data StreamEvent.messageStop, Frame.eventMessageStop, Frame.blank] : List Frame)
      ≠ [Frame.data StreamEvent.messageStop] :=
  ⟨rfl, rfl, by simp⟩

lemma expressLine_eq_filter_edge (line : List Char) :
    expressLineFrames line = (edgeLineFrames line).filter isDataFrame := by
  unfold expressLineFrames edgeLineFrames
  by_cases h1 : startsWithData line
  · by_cases h2 : line.drop 6 = doneTag
    · simp [h1, h2, isDataFrame]
    · cases hp : jsonParse (line.drop 6) with
      | none => simp [h1, h2, hp]
      | some parsed =>
        cases ht : transformStreamChunk parsed with
        | none => simp [h1, h2, hp, ht]
        | some ev => simp [h1, h2, hp, ht, isDataFrame]
  · by_cases h3 : isBlankLine line
    · simp [h1, h3, isDataFrame]
    · simp [h1, h3]

/-- C4 amended: the two streaming implementations agree on every event
('data:') frame — for every chunk sequence the Express handler's output
is exactly the edge handler's output restricted to its data frames; the
edge handler additionally emits an `event: message_stop` frame after
each `[DONE]` and forwards blank lines, which the Express handler
omits. -/
theorem c4_amended_express_is_edge_data_frames :
    ∀ chunks : List (List Char),
      expressStreamFrames chunks = (edgeStreamFrames chunks).filter isDataFrame := by
  have hchunk : ∀ text : List Char,
      expressChunkFrames text = (edgeChunkFrames text).filter isDataFrame := by
    intro text
    unfold expressChunkFrames edgeChunkFrames
    induction splitLines text with
    | nil => simp
    | cons l ls ih =>
      simp [List.flatMap_cons, List.filter_append, ih, expressLine_eq_filter_edge]
  intro chunks
  unfold expressStreamFrames edgeStreamFrames
  induction chunks with
  | nil => simp
  | cons c cs ih => simp [List.flatMap_cons, List.filter_append, ih, hchunk]

/-! ### Newline-boundary splitting lemmas for C1 -/

lemma splitLinesCore_cons (x : Char) (cs : List Char) :
    splitLinesCore (x :: cs)
      = if x = '\n' then ([], (splitLinesCore cs).1 :: (splitLinesCore cs).2)
        else (x :: (splitLinesCore cs).1, (splitLinesCore cs).2) := rfl

/-- Splitting `xs ++ '\n' :: ys` agrees with splitting `xs ++ ['\n']`
on the first component, and its remaining lines are those of
`xs ++ ['\n']` minus the final empty line, followed by the lines of
`ys`; moreover the last line of `xs ++ ['\n']` is always empty. -/
lemma splitLinesCore_newline_split :
    ∀ (xs ys : List Char),
      (splitLinesCore (xs ++ '\n' :: ys)).1 = (splitLinesCore (xs ++ ['\n'])).1 ∧
      (splitLinesCore (xs ++ '\n' :: ys)).2
        = ((splitLinesCore (xs ++ ['\n'])).2).dropLast ++ splitLines ys ∧
      ((splitLinesCore (xs ++ ['\n'])).2).getLast? = some [] := by
  intro xs
  induction xs with
  | nil =>
    intro ys
    refine ⟨rfl, ?_, rfl⟩
    simp [splitLinesCore_cons, splitLines, splitLinesCore]
  | cons x xs ih =>
    intro ys
    obtain ⟨ih1, ih2, ih3⟩ := ih ys
    have hS : (splitLinesCore (xs ++ ['\n'])).2 ≠ [] := by
      intro h0; rw [h0] at ih3; simp at ih3
    obtain ⟨s, ss, hss⟩ := List.exists_cons_of_ne_nil hS
    by_cases hx : x = '\n'
    · subst hx
      refine ⟨?_, ?_, ?_⟩
      · simp [List.cons_append, splitLinesCore_cons]
      · simp only [List.cons_append, splitLinesCore_cons, if_pos rfl]
        rw [ih1, ih2, hss]
        simp
      · simp only [List.cons_append, splitLinesCore_cons, if_true]
        rw [hss, List.getLast?_cons_cons]
        rw [hss] at ih3
        exact ih3
    · refine ⟨?_, ?_, ?_⟩
      · simp only [List.cons_append, splitLinesCore_cons, if_neg hx]
        rw [ih1]
      · simp only [List.cons_append, splitLinesCore_cons, if_neg hx]
        exact ih2
      · simp only [List.cons_append, splitLinesCore_cons, if_neg hx]
        exact ih3

lemma expressLineFrames_nil : expressLineFrames [] = [] := rfl

/-- Processing a chunk that is split at a newline is the same as
processing the two pieces separately (Express handler). -/
lemma expressChunkFrames_newline_append (xs ys : List Char) :
    expressChunkFrames (xs ++ '\n' :: ys)
      = expressChunkFrames (xs ++ ['\n']) ++ expressChunkFrames ys := by
  obtain ⟨h1, h2, h3⟩ := splitLinesCore_newline_split xs ys
  have hS : (splitLinesCore (xs ++ ['\n'])).2 ≠ [] := by
    intro h0; rw [h0] at h3; simp at h3
  have hgl : (splitLinesCore (xs ++ ['\n'])).2.getLast hS = [] := by
    have := List.getLast?_eq_getLast_of_ne_nil hS
    rw [this] at h3
    exact Option.some_injective _ h3
  have hlast : (splitLinesCore (xs ++ ['\n'])).2
      = ((splitLinesCore (xs ++ ['\n'])).2).dropLast ++ [[]] := by
    conv_lhs => rw [← List.dropLast_append_getLast hS, hgl]
  show ((splitLinesCore (xs ++ '\n' :: ys)).1 :: (splitLinesCore (xs ++ '\n' :: ys)).2).flatMap
        expressLineFrames
      = ((splitLinesCore (xs ++ ['\n'])).1 :: (splitLinesCore (xs ++ ['\n'])).2).flatMap
          expressLineFrames ++ expressChunkFrames ys
  rw [h1, h2]
  conv_rhs => rw [hlast]
  simp [List.flatMap_cons, List.flatMap_append, expressLineFrames_nil, expressChunkFrames,
    splitLines]

/-- Feeding newline-terminated chunks one at a time produces the same
frames as feeding their concatenation (Express handler). -/
lemma expressStream_eq_flatten (chunks : List (List Char))
    (h : ∀ c ∈ chunks, c.getLast? = some '\n') :
    expressStreamFrames chunks = expressChunkFrames chunks.flatten := by
  induction chunks with
  | nil => rfl
  | cons c cs ih =>
    have hc := h c (by simp)
    have hne : c ≠ [] := by intro h0; rw [h0] at hc; simp at hc
    have hgl : c.getLast hne = '\n' := by
      have hq := List.getLast?_eq_getLast_of_ne_nil hne
      rw [hq] at hc
      exact Option.some_injective _ hc
    have hsplit : c = c.dropLast ++ ['\n'] := by
      conv_lhs => rw [← List.dropLast_append_getLast hne, hgl]
    have hrest := ih (fun x hx => h x (by simp [hx]))
    show expressChunkFrames c ++ expressStreamFrames cs
        = expressChunkFrames (c :: cs).flatten
    rw [List.flatten_cons, hrest]
    have harg : c ++ cs.flatten = c.dropLast ++ '\n' :: cs.flatten := by
      conv_lhs => rw [hsplit]
      rw [List.append_assoc, List.singleton_append]
    rw [harg, expressChunkFrames_newline_append, ← hsplit]

/-- C1 counterexample: the single frame `data: [DONE]\n` fed as one
chunk emits the `message_stop` event, but the same bytes split in the
middle of the line (`data: [DO` + `NE]\n`) emit nothing — the split
segment is processed immediately instead of being buffered — so the
emitted events depend on the chunk boundaries, refuting the claim. -/
theorem c1_counterexample :
    ("data: [DO").data ++ ("NE]\n").data = ("data: [DONE]\n").data ∧
    expressStreamFrames [("data: [DO").data, ("NE]\n").data] = [] ∧
    expressStreamFrames [("data: [DONE]\n").data] = [Frame.data StreamEvent.messageStop] ∧
    ([] : List Frame) ≠ [Frame.data StreamEvent.messageStop] :=
  ⟨rfl, rfl, rfl, by simp⟩

/-- C1 amended: chunk-boundary invariance holds only for splits at line
boundaries — for every sequence of newline-terminated chunks, feeding
the chunks in order produces the same frames as feeding the whole byte
sequence in one chunk.  (Splits inside a line are not invariant: the
handler processes the unterminated last segment immediately instead of
pushing it back into a buffer, as the counterexample shows.) -/
theorem c1_amended_newline_boundary_invariance :
    ∀ chunks : List (List Char),
      (∀ c ∈ chunks, c.getLast? = some '\n') →
      expressStreamFrames chunks = expressStreamFrames [chunks.flatten] := by
  intro chunks h
  rw [expressStream_eq_flatten chunks h]
  simp [expressStreamFrames]

/-- C1 witness: a delta frame and a `[DONE]` frame fed as two chunks
equal the same bytes fed as one chunk. -/
theorem c1_witness :
    expressStreamFrames
        [("data: \x7b\"choices\":[\x7b\"delta\":\x7b\"content\":\"Hi\"\x7d\x7d]\x7d\n").data,
         ("data: [DONE]\n").data]
      = expressStreamFrames
          [(("data: \x7b\"choices\":[\x7b\"delta\":\x7b\"content\":\"Hi\"\x7d\x7d]\x7d\n").data ++
              ("data: [DONE]\n").data)] ∧
    expressStreamFrames
        [("data: \x7b\"choices\":[\x7b\"delta\":\x7b\"content\":\"Hi\"\x7d\x7d]\x7d\n").data,
         ("data: [DONE]\n").data]
      = [Frame.data (StreamEvent.contentBlockDelta (JsValue.str "Hi")),
         Frame.data StreamEvent.messageStop] := by
  constructor
  · have h := c1_amended_newline_boundary_invariance
      [("data: \x7b\"choices\":[\x7b\"delta\":\x7b\"content\":\"Hi\"\x7d\x7d]\x7d\n").data,
       ("data: [DONE]\n").data] (by decide)
    exact h.trans (by rfl)
  · rfl
